import Mathlib

/-!
# Verification of the kxgames/GameEngine messaging core

This file gives a shallow embedding of the messaging core of the
kxgames/GameEngine repository and proves properties of it:

* `src/kxg/messages.py` — the `Message` protocol (token attachment,
  structural checking, execution, soft/hard sync-error handling,
  pickling via `__getstate__`/`__setstate__`);
* `src/modules/messaging.py` — the `Forum` publish/subscribe hub with
  per-origin ticker deduplication, and its timed variant `Timer`;
* `src/demos/guess_my_number.py` — the `GuessNumber` demo message.

Python dictionaries keyed by arbitrary attribute presence are embedded as
`Option`-valued fields; Python exceptions are embedded as `Except`/`Option`
results; the thread-safe FIFO `queue.Queue` is embedded as a `List` used
first-in-first-out; overridable `on_*` hooks are embedded as function
parameters.

The classes `Token`, `World` and `IdFactory` are defined in repository
files that are not part of the sources examined here (only
`messages.py`, which calls into them, is); they are modelled from the
specification where noted.
-/

/-- Registration states of a token.  Modelled from the spec: the token
lifecycle is unregistered → registered-in-world → removed, with
`reset_registration` returning to unregistered (`tokens.py` is not among
the examined sources). -/
inductive Registration where
  | unregistered
  | registered
  | removed
deriving DecidableEq, Repr

/-- Modelled from the spec: a token has an identity (`id`, absent until
assigned), a registration state, and domain-specific fields (represented
by a single `payload`).  (`tokens.py` is not among the examined sources.) -/
structure Token where
  id : Option Nat
  registration : Registration
  payload : Nat
deriving DecidableEq, Repr

/-- Modelled from the spec: `reset_registration()` returns the token to
the unregistered state while preserving its id for controlled reuse. -/
def Token.reset_registration (t : Token) : Token :=
  { t with registration := Registration.unregistered }

/-- A Python value that may or may not be a `Token`.  The token lists of a
message are Python lists, which are heterogeneous; `add_tokens` performs
no type validation, so non-token values can end up in them. -/
inductive Value where
  | token (t : Token)
  | intVal (n : Int)
deriving DecidableEq, Repr

/-- Whether a value is a token. -/
def Value.isToken : Value → Bool
  | Value.token _ => true
  | Value.intVal _ => false

/-- Modelled from the spec: a `World` is the aggregate of registered
tokens (`world.py` is not among the examined sources).  Only the
operations `messages.py` uses are modelled: membership, lookup by id,
`_add_token` and `_remove_token`. -/
structure World where
  tokens : List Token
deriving DecidableEq, Repr

/-- Modelled from the spec: membership test `token in world`. -/
def World.contains (w : World) (t : Token) : Bool :=
  w.tokens.contains t

/-- Modelled from the spec: `world.get_token(id)` looks a token up by its
id; absent ids yield no token (a lookup failure in Python). -/
def World.get_token (w : World) (i : Nat) : Option Token :=
  w.tokens.find? (fun t => t.id == some i)

/-- Modelled from the spec: `world._add_token(token)` inserts the token
into the aggregate. -/
def World._add_token (w : World) (t : Token) : World :=
  { tokens := w.tokens ++ [t] }

/-- Modelled from the spec: `world._remove_token(token)` removes that
instance from the aggregate. -/
def World._remove_token (w : World) (t : Token) : World :=
  { tokens := w.tokens.erase t }

/-- Modelled from the spec: an `IdFactory` hands out its owner's identity
via `get()` and supports a membership test over the ids it has issued
(used to validate token provenance). -/
structure IdFactory where
  identity : Nat
  issued : List Nat
deriving DecidableEq, Repr

/-- Modelled from the spec: `id_factory.get()`. -/
def IdFactory.get (f : IdFactory) : Nat :=
  f.identity

/-- Modelled from the spec: `id in id_factory`.  A token whose id was
never assigned (`none`) was not issued by any factory. -/
def IdFactory.containsId (f : IdFactory) : Option Nat → Bool
  | some i => f.issued.contains i
  | none => false

/-- The error conditions raised by the embedded code: `MessageAlreadySent`
and `UnhandledSyncError` from `kxg/errors.py`, the contract violation
raised by `require_token` on a non-token value, and the lookup failure of
`world.get_token` on an id that is not in the world. -/
inductive KxgError where
  | messageAlreadySent
  | objectIsntToken
  | unhandledSyncError
  | tokenNotFound
deriving DecidableEq, Repr

/-- `Message.ErrorState` from `messages.py`: `SOFT_SYNC_ERROR = 0`,
`HARD_SYNC_ERROR = 1`. -/
inductive ErrorState where
  | SOFT_SYNC_ERROR
  | HARD_SYNC_ERROR
deriving DecidableEq, Repr

/-- The state of a `Message` from `messages.py`.  `__init__` sets only the
two token lists; `sender_id`, `_error_state` and `_was_sent` are absent
until assigned, embedded as `Option` fields (`none` = attribute absent). -/
structure Message where
  tokens_to_add : List Value
  tokens_to_remove : List Value
  sender_id : Option Nat
  _error_state : Option ErrorState
  _was_sent : Option Bool
deriving DecidableEq, Repr

/-- `Message.__init__`: both token lists empty, no other attributes. -/
def Message.init : Message :=
  { tokens_to_add := []
    tokens_to_remove := []
    sender_id := none
    _error_state := none
    _was_sent := none }

/-- `Message.was_sent`: `hasattr(self, 'sender_id')`. -/
def Message.was_sent (m : Message) : Bool :=
  m.sender_id.isSome

/-- `Message.has_soft_sync_error`:
`getattr(self, '_error_state', None) == Message.ErrorState.SOFT_SYNC_ERROR`. -/
def Message.has_soft_sync_error (m : Message) : Bool :=
  m._error_state == some ErrorState.SOFT_SYNC_ERROR

/-- `Message.has_hard_sync_error`:
`getattr(self, '_error_state', None) == Message.ErrorState.HARD_SYNC_ERROR`. -/
def Message.has_hard_sync_error (m : Message) : Bool :=
  m._error_state == some ErrorState.HARD_SYNC_ERROR

/-- Modelled from the spec: `require_token` (imported by `messages.py`
from `tokens.py`, which is not among the examined sources) raises a
contract violation when its argument is not a `Token`. -/
def require_token (v : Value) : Except KxgError Unit :=
  if v.isToken then Except.ok () else Except.error KxgError.objectIsntToken

/-- `Message.add_token`: `require_token(token)`, then raise
`MessageAlreadySent` if already sent, then append to `tokens_to_add`. -/
def Message.add_token (m : Message) (v : Value) : Except KxgError Message :=
  match require_token v with
  | Except.error e => Except.error e
  | Except.ok () =>
    if m.was_sent then Except.error KxgError.messageAlreadySent
    else Except.ok { m with tokens_to_add := m.tokens_to_add ++ [v] }

/-- `Message.add_tokens`: raise `MessageAlreadySent` if already sent, then
extend `tokens_to_add` (no per-element validation). -/
def Message.add_tokens (m : Message) (vs : List Value) : Except KxgError Message :=
  if m.was_sent then Except.error KxgError.messageAlreadySent
  else Except.ok { m with tokens_to_add := m.tokens_to_add ++ vs }

/-- `Message.remove_token`: `require_token(token)`, then raise
`MessageAlreadySent` if already sent, then append to `tokens_to_remove`. -/
def Message.remove_token (m : Message) (v : Value) : Except KxgError Message :=
  match require_token v with
  | Except.error e => Except.error e
  | Except.ok () =>
    if m.was_sent then Except.error KxgError.messageAlreadySent
    else Except.ok { m with tokens_to_remove := m.tokens_to_remove ++ [v] }

/-- `Message.remove_tokens`: raise `MessageAlreadySent` if already sent,
then extend `tokens_to_remove` (no per-element validation). -/
def Message.remove_tokens (m : Message) (vs : List Value) : Except KxgError Message :=
  if m.was_sent then Except.error KxgError.messageAlreadySent
  else Except.ok { m with tokens_to_remove := m.tokens_to_remove ++ vs }

/-- `Message._set_error_state(world)`: set `_error_state` to soft when the
overridable hook `on_check_for_soft_sync_error(world)` returns true, to
hard otherwise.  The hook is a parameter (`Message.on_check_for_soft_sync_error`
defaults to returning `False` and subclasses override it). -/
def Message._set_error_state (softHook : World → Bool) (m : Message) (w : World) : Message :=
  if softHook w then { m with _error_state := some ErrorState.SOFT_SYNC_ERROR }
  else { m with _error_state := some ErrorState.HARD_SYNC_ERROR }

/-- The first loop of `Message._check`: for each token to add, return
`False` if it is already in the world, then `False` if its id is not in
the id factory.  A non-token element would fault in Python (`none`). -/
def checkAddLoop (w : World) (f : IdFactory) : List Value → Option Bool
  | [] => some true
  | Value.token t :: vs =>
    if w.contains t then some false
    else if !(f.containsId t.id) then some false
    else checkAddLoop w f vs
  | Value.intVal _ :: _ => none

/-- The second loop of `Message._check`: for each token to remove, return
`False` if it is not in the world. -/
def checkRemoveLoop (w : World) : List Value → Option Bool
  | [] => some true
  | Value.token t :: vs =>
    if !(w.contains t) then some false
    else checkRemoveLoop w vs
  | Value.intVal _ :: _ => none

/-- `Message._check(world, id_factory)`: the structural loops over
`tokens_to_add` and `tokens_to_remove`, then
`self.on_check(world, id_factory.get())`.  The overridable `on_check`
hook is a parameter. -/
def Message._check (onCheck : World → Nat → Bool) (m : Message) (w : World)
    (f : IdFactory) : Option Bool :=
  match checkAddLoop w f m.tokens_to_add with
  | none => none
  | some false => some false
  | some true =>
    match checkRemoveLoop w m.tokens_to_remove with
    | none => none
    | some false => some false
    | some true => some (onCheck w f.get)

/-- The first loop of `Message._handle_hard_sync_error`: each token in
`tokens_to_add` has not been added to this world instance (the message
was pickled before execution on the server), so the world-resident
instance is looked up by id with `world.get_token(token.id)` and that
instance is removed with `world._remove_token(real_token)`.  A token
without an id, a failed lookup, or a non-token element faults. -/
def removeAddedLoop (w : World) : List Value → Except KxgError World
  | [] => Except.ok w
  | Value.token t :: vs =>
    match t.id with
    | some i =>
      match w.get_token i with
      | some real_token => removeAddedLoop (w._remove_token real_token) vs
      | none => Except.error KxgError.tokenNotFound
    | none => Except.error KxgError.tokenNotFound
  | Value.intVal _ :: _ => Except.error KxgError.objectIsntToken

/-- The second loop of `Message._handle_hard_sync_error`: each token in
`tokens_to_remove` was already removed from the world; it is added back
with the same id as before (`id = token.id`, `token.reset_registration()`,
`token._id = id`, `world._add_token(token)`). -/
def reAddRemovedLoop (w : World) : List Value → Except KxgError World
  | [] => Except.ok w
  | Value.token t :: vs =>
    let i := t.id
    let t1 := t.reset_registration
    let t2 := { t1 with id := i }
    reAddRemovedLoop (w._add_token t2) vs
  | Value.intVal _ :: _ => Except.error KxgError.objectIsntToken

/-- `Message.on_hard_sync_error(world)` as defined on the base class:
`raise UnhandledSyncError(self)`.  Subclasses override it; the override
is passed as a hook where needed. -/
def Message.on_hard_sync_error : World → Except KxgError World :=
  fun _ => Except.error KxgError.unhandledSyncError

/-- `Message._handle_hard_sync_error(world)`: undo the additions, undo
the removals, then run the overridable `on_hard_sync_error` hook. -/
def Message._handle_hard_sync_error (hook : World → Except KxgError World)
    (m : Message) (w : World) : Except KxgError World :=
  match removeAddedLoop w m.tokens_to_add with
  | Except.error e => Except.error e
  | Except.ok w1 =>
    match reAddRemovedLoop w1 m.tokens_to_remove with
    | Except.error e => Except.error e
    | Except.ok w2 => hook w2

/-- The pickled state of a message.  `Message.__getstate__` copies the
attribute dictionary and deletes `tokens_to_add` / `tokens_to_remove`
when they are empty; `none` here means the key is absent from the
pickled dictionary. -/
structure MessageState where
  tokens_to_add : Option (List Value)
  tokens_to_remove : Option (List Value)
  sender_id : Option Nat
  _error_state : Option ErrorState
  _was_sent : Option Bool
deriving DecidableEq, Repr

/-- `Message.__getstate__`. -/
def Message.getstate (m : Message) : MessageState :=
  { tokens_to_add := if m.tokens_to_add = [] then none else some m.tokens_to_add
    tokens_to_remove := if m.tokens_to_remove = [] then none else some m.tokens_to_remove
    sender_id := m.sender_id
    _error_state := m._error_state
    _was_sent := m._was_sent }

/-- `Message.__setstate__(state)`: `Message.__init__(self)` (both token
lists reset to empty), `self.__dict__.update(state)` (keys present in the
pickled state overwrite), then `self._was_sent = True`. -/
def Message.setstate (state : MessageState) : Message :=
  { tokens_to_add := state.tokens_to_add.getD []
    tokens_to_remove := state.tokens_to_remove.getD []
    sender_id := state.sender_id
    _error_state := state._error_state
    _was_sent := some true }

/-- A message handled by a `Forum` (`src/modules/messaging.py`).  In
Python the subscription key ("flavor") is the message's class; here it is
a `flavor` field, with a `payload` for the rest of the object. -/
structure Msg where
  flavor : Nat
  payload : Nat
deriving DecidableEq, Repr

/-- A network tag `(target, origin, ticker)`. -/
structure Tag where
  target : Nat
  origin : Nat
  ticker : Nat
deriving DecidableEq, Repr

/-- An entry of a forum's publication queue: `(pipe, tag, message)`, with
`pipe = tag = None` for locally published messages. -/
structure Publication where
  sender : Option Nat
  tag : Option Tag
  message : Msg
deriving DecidableEq, Repr

/-- An incoming network packet as drained by `Forum.update` from
`pipe.receive(target)`: a tag plus the message (the flavor component of
the wire triple is not consulted by `update`). -/
structure Packet where
  pipe : Option Nat
  tag : Tag
  message : Msg
deriving DecidableEq, Repr

/-- The state of a `Forum`.  `history` embeds the Python dictionary
together with its read-side default: `self.history.get(origin, 0)`, so
an origin with no entry maps to `0`.  `subscriptions` embeds the
flavor-to-callback-list dictionary as an order-preserving list of
(flavor, callback) pairs; callbacks are identified by `Nat` labels, and a
delivery is recorded as an event instead of calling a function.
`publications` embeds the FIFO `queue.Queue`.  Pipes are external
collaborators; the packets a pipe hands to `update` are passed in as an
argument. -/
structure Forum where
  history : Nat → Nat
  subscriptions : List (Nat × Nat)
  publications : List Publication
  locked : Bool

/-- `Forum.__init__` (no pipes): empty history (every origin reads as 0),
no subscriptions, empty queue, unlocked. -/
def Forum.init : Forum :=
  { history := fun _ => 0
    subscriptions := []
    publications := []
    locked := false }

/-- `Forum.subscribe(flavor, callback)`: `assert not self.locked`, then
append the callback to the flavor's list. -/
def Forum.subscribe (f : Forum) (flavor cb : Nat) : Option Forum :=
  if f.locked then none
  else some { f with subscriptions := f.subscriptions ++ [(flavor, cb)] }

/-- `Forum.publish(message)`: enqueue `(None, None, message)`. -/
def Forum.publish (f : Forum) (m : Msg) : Forum :=
  { f with publications := f.publications ++ [⟨none, none, m⟩] }

/-- `Forum.lock()`. -/
def Forum.lock (f : Forum) : Forum :=
  { f with locked := true }

/-- `Forum.unlock()`: clear the lock flag, all subscriptions, and the
publication queue. -/
def Forum.unlock (f : Forum) : Forum :=
  { f with locked := false, subscriptions := [], publications := [] }

/-- The incoming-packet phase of `Forum.update` (the drain of
`pipe.receive(target)`): for each packet with tag
`(target, origin, ticker)`, when `ticker > self.history.get(origin, 0)`
the publication `(pipe, tag, message)` is enqueued and
`self.history[origin]` is set to `ticker`; otherwise the packet is
dropped. -/
def drainIncoming (h : Nat → Nat) (q : List Publication) :
    List Packet → (Nat → Nat) × List Publication
  | [] => (h, q)
  | p :: ps =>
    let old_ticker := h p.tag.origin
    if p.tag.ticker > old_ticker then
      drainIncoming (fun o => if o = p.tag.origin then p.tag.ticker else h o)
        (q ++ [⟨p.pipe, some p.tag, p.message⟩]) ps
    else
      drainIncoming h q ps

/-- The callbacks registered for a flavor, in registration order
(`self.subscriptions.get(flavor, [])`). -/
def callbacksFor (subs : List (Nat × Nat)) (flavor : Nat) : List Nat :=
  (subs.filter (fun p => p.1 == flavor)).map (fun p => p.2)

/-- The local-delivery phase of `Forum.update`: publications are popped
first-in-first-out and each subscriber callback for the message's flavor
is invoked with the message; an invocation is recorded as a
(callback, message) event. -/
def deliverQueue (subs : List (Nat × Nat)) (pubs : List Publication) :
    List (Nat × Msg) :=
  pubs.flatMap (fun p => (callbacksFor subs p.message.flavor).map (fun cb => (cb, p.message)))

/-- `Forum.update()` for a forum whose incoming packets are `incoming`:
`assert self.locked`, drain incoming packets through the ticker filter,
then drain the publication queue, delivering each message to its
subscribers (the relay-to-other-pipes and outgoing-flush phases iterate
over connected pipes and produce no local state change beyond `history`,
which only the incoming drain touches here).  Returns the new forum state
and the list of callback invocations. -/
def Forum.update (f : Forum) (incoming : List Packet) :
    Option (Forum × List (Nat × Msg)) :=
  if !f.locked then none
  else
    let hq := drainIncoming f.history f.publications incoming
    some ({ f with history := hq.1, publications := [] },
          deliverQueue f.subscriptions hq.2)

/-- The state of a `Timer` (`src/modules/messaging.py`): a forum plus a
`pending` list of `(delay, message)` packages.  Delays are numbers of
seconds; they are embedded as integers, which is faithful for the
comparison and subtraction logic the code performs on them. -/
structure Timer where
  forum : Forum
  pending : List (Int × Msg)

/-- `Timer.publish(message, delay)`: append `(delay, message)` to
`self.pending` (the message is not enqueued on the forum's queue). -/
def Timer.publish (t : Timer) (m : Msg) (delay : Int) : Timer :=
  { t with pending := t.pending ++ [(delay, m)] }

/-- The loop of `Timer.deliver(time)`: for each pending
`(delay, message)`, `delay = delay - time`; `if delay < 0` publish the
message immediately through `Forum.publish`, `else` re-defer it through
`self.publish(message, delay)`. -/
def deliverLoop (time : Int) (t : Timer) : List (Int × Msg) → Timer
  | [] => t
  | (delay, message) :: rest =>
    let delay := delay - time
    if delay < 0 then
      deliverLoop time { t with forum := t.forum.publish message } rest
    else
      deliverLoop time (t.publish message delay) rest

/-- `Timer.deliver(time)`: snapshot `self.pending`, reset it to `[]`, run
the loop.  (The method's final statement, `Forum.deliver(self)`, refers
to a method `Forum` does not define and raises `AttributeError` in
Python after the loop has run; the state changes made by the loop
persist, and this embedding returns that state.) -/
def Timer.deliver (t : Timer) (time : Int) : Timer :=
  let pending := t.pending
  deliverLoop time { t with pending := [] } pending

/-- The demo world of `src/demos/guess_my_number.py`: the secret number,
the remaining bounds, and the winner.  `end_game` is provided by the
`kxg.World` base class, which is not among the examined sources; it is
modelled from the spec as setting a game-over flag. -/
structure GWorld where
  number : Int
  lower_bound : Int
  upper_bound : Int
  winner : Int
  game_over : Bool
deriving DecidableEq, Repr

/-- `GuessNumber.on_execute(world)` from `src/demos/guess_my_number.py`:
a correct guess records the winner and ends the game; a low guess raises
the lower bound to `max(guess, world.lower_bound)`; a high guess lowers
the upper bound to `min(guess, world.upper_bound)`. -/
def GuessNumber.on_execute (player guess : Int) (w : GWorld) : GWorld :=
  if guess = w.number then
    { w with winner := player, game_over := true }
  else if guess < w.number then
    { w with lower_bound := max guess w.lower_bound }
  else if guess > w.number then
    { w with upper_bound := min guess w.upper_bound }
  else
    w

/-- The operations a forum's clients may interleave: `lock()`,
`unlock()`, `subscribe(flavor, callback)`, `publish(message)`, and a call
to `update()` on a forum with no connected pipes (no incoming packets). -/
inductive Op where
  | lock
  | unlock
  | subscribe (flavor cb : Nat)
  | publish (m : Msg)
  | update
deriving DecidableEq, Repr

/-- One client operation on a forum.  `none` embeds a failed `assert`
(subscribing while locked, updating while unlocked), which raises before
any state change or delivery. -/
def stepOp (f : Forum) : Op → Option (Forum × List (Nat × Msg))
  | Op.lock => some (f.lock, [])
  | Op.unlock => some (f.unlock, [])
  | Op.subscribe flavor cb => (f.subscribe flavor cb).map (fun g => (g, []))
  | Op.publish m => some (f.publish m, [])
  | Op.update => f.update []

/-- Run a sequence of client operations, collecting every callback
invocation; a failed `assert` aborts the run. -/
def runOps (f : Forum) : List Op → List (Nat × Msg)
  | [] => []
  | op :: ops =>
    match stepOp f op with
    | none => []
    | some (g, evs) => evs ++ runOps g ops

/-- The highest ticker among the packets of a list that come from a given
origin (0 when there are none): the formal reading of "the highest ticker
seen so far" for an origin. -/
def maxTickerFrom (o : Nat) : List Packet → Nat
  | [] => 0
  | p :: ps =>
    if p.tag.origin = o then max p.tag.ticker (maxTickerFrom o ps)
    else maxTickerFrom o ps

/-! ## Theorems -/

/-- C8: for the demo `GuessNumber` message, a guess equal to the secret
number records the guessing player as winner and ends the game; a guess
below the secret number raises `lower_bound` to `max(guess, lower_bound)`
and leaves `winner` and `upper_bound` (and the rest of the world)
unchanged.  In particular, with number 7 a guess of 7 by player 2 makes
the winner 2, and with number 7, guess 3 and bounds (0, 10) the lower
bound becomes 3. -/
theorem guessNumber_on_execute_spec (player guess : Int) (w : GWorld) :
    (guess = w.number →
      GuessNumber.on_execute player guess w =
        { w with winner := player, game_over := true }) ∧
    (guess < w.number →
      GuessNumber.on_execute player guess w =
        { w with lower_bound := max guess w.lower_bound }) ∧
    GuessNumber.on_execute 2 7 ⟨7, 0, 10, 0, false⟩ = ⟨7, 0, 10, 2, true⟩ ∧
    GuessNumber.on_execute 2 3 ⟨7, 0, 10, 0, false⟩ = ⟨7, 3, 10, 0, false⟩ := by
  refine ⟨fun h => ?_, fun h => ?_, by decide, by decide⟩
  · simp [GuessNumber.on_execute, h]
  · have hne : guess ≠ w.number := ne_of_lt h
    simp [GuessNumber.on_execute, hne, h]

/-- Witness for C8 at a concrete input: player 2 guessing 7 against the
world with secret number 7 and bounds (0, 10). -/
theorem guessNumber_on_execute_spec_witness :
    GuessNumber.on_execute 2 7 ⟨7, 0, 10, 0, false⟩ =
      { GWorld.mk 7 0 10 0 false with winner := 2, game_over := true } :=
  (guessNumber_on_execute_spec 2 7 ⟨7, 0, 10, 0, false⟩).1 rfl

/-- C5: at most one of `has_soft_sync_error` and `has_hard_sync_error`
holds at any time; while `_error_state` is unassigned both are false; and
after `_set_error_state` exactly one holds — the soft state exactly when
the `on_check_for_soft_sync_error` hook returned true, the hard state
otherwise. -/
theorem error_state_exclusive (softHook : World → Bool) (m : Message) (w : World) :
    (¬(m.has_soft_sync_error = true ∧ m.has_hard_sync_error = true)) ∧
    (m._error_state = none →
      m.has_soft_sync_error = false ∧ m.has_hard_sync_error = false) ∧
    ((Message._set_error_state softHook m w).has_soft_sync_error = true ↔
      softHook w = true) ∧
    ((Message._set_error_state softHook m w).has_hard_sync_error = true ↔
      softHook w = false) := by
  refine ⟨?_, ?_, ?_, ?_⟩
  · rcases hm : m._error_state with _ | st
    · simp [Message.has_soft_sync_error, Message.has_hard_sync_error, hm]
    · cases st <;>
        simp [Message.has_soft_sync_error, Message.has_hard_sync_error, hm]
  · intro hm
    simp [Message.has_soft_sync_error, Message.has_hard_sync_error, hm]
  · cases hs : softHook w <;>
      simp [Message._set_error_state, Message.has_soft_sync_error, hs]
  · cases hs : softHook w <;>
      simp [Message._set_error_state, Message.has_hard_sync_error, hs]

/-- Witness for C5 at a concrete input: a fresh message validated with a
hook that reports a soft error. -/
theorem error_state_exclusive_witness :
    (Message._set_error_state (fun _ => true) Message.init ⟨[]⟩).has_soft_sync_error
      = true :=
  (error_state_exclusive (fun _ => true) Message.init ⟨[]⟩).2.2.1.mpr rfl

/-- C4: with token arguments, each of the four attachment operations
raises `MessageAlreadySent` exactly when the message was already sent
(its `sender_id` assigned); the raise happens before any list mutation,
so an error result leaves the message value untouched; and on an unsent
message each operation appends the given token(s) to the corresponding
list. -/
theorem token_attachment_sent_guard (m : Message) (t : Token) (vs : List Value) :
    (m.add_token (Value.token t) = Except.error KxgError.messageAlreadySent ↔
      m.was_sent = true) ∧
    (m.remove_token (Value.token t) = Except.error KxgError.messageAlreadySent ↔
      m.was_sent = true) ∧
    (m.add_tokens vs = Except.error KxgError.messageAlreadySent ↔
      m.was_sent = true) ∧
    (m.remove_tokens vs = Except.error KxgError.messageAlreadySent ↔
      m.was_sent = true) ∧
    (m.was_sent = false →
      m.add_token (Value.token t) =
        Except.ok { m with tokens_to_add := m.tokens_to_add ++ [Value.token t] } ∧
      m.remove_token (Value.token t) =
        Except.ok { m with tokens_to_remove := m.tokens_to_remove ++ [Value.token t] } ∧
      m.add_tokens vs =
        Except.ok { m with tokens_to_add := m.tokens_to_add ++ vs } ∧
      m.remove_tokens vs =
        Except.ok { m with tokens_to_remove := m.tokens_to_remove ++ vs }) := by
  cases hm : m.was_sent <;>
    simp [Message.add_token, Message.remove_token, Message.add_tokens,
      Message.remove_tokens, require_token, Value.isToken, hm]

/-- Witness for C4 at a concrete input: a message with `sender_id`
assigned rejects `add_token`. -/
theorem token_attachment_sent_guard_witness :
    Message.add_token { Message.init with sender_id := some 5 }
        (Value.token ⟨none, Registration.unregistered, 0⟩) =
      Except.error KxgError.messageAlreadySent :=
  (token_attachment_sent_guard { Message.init with sender_id := some 5 }
      ⟨none, Registration.unregistered, 0⟩ []).1.mpr rfl

/-- C10: on an unsent message, the singular operations `add_token` and
`remove_token` reject a non-token argument with a contract violation
(`require_token`), while the plural operations `add_tokens` and
`remove_tokens` perform no token-type validation and append the same
value to the corresponding list without error. -/
theorem plural_attachment_skips_validation (m : Message) (v : Value)
    (hsent : m.sender_id = none) (hv : v.isToken = false) :
    m.add_token v = Except.error KxgError.objectIsntToken ∧
    m.remove_token v = Except.error KxgError.objectIsntToken ∧
    m.add_tokens [v] =
      Except.ok { m with tokens_to_add := m.tokens_to_add ++ [v] } ∧
    m.remove_tokens [v] =
      Except.ok { m with tokens_to_remove := m.tokens_to_remove ++ [v] } := by
  have hm : m.was_sent = false := by simp [Message.was_sent, hsent]
  simp [Message.add_token, Message.remove_token, Message.add_tokens,
    Message.remove_tokens, require_token, hv, hm]

/-- Witness for C10 at a concrete input: the integer value 3 attached to
a fresh message. -/
theorem plural_attachment_skips_validation_witness :
    Message.add_token Message.init (Value.intVal 3) =
        Except.error KxgError.objectIsntToken ∧
      Message.add_tokens Message.init [Value.intVal 3] =
        Except.ok { Message.init with tokens_to_add := [Value.intVal 3] } := by
  have h := plural_attachment_skips_validation Message.init (Value.intVal 3) rfl rfl
  exact ⟨h.1, h.2.2.1⟩

/-- C9: `was_sent()` is `hasattr(self, 'sender_id')` and never consults
the private `_was_sent` flag; `__setstate__` sets `_was_sent` to true,
yet a message pickled before its sender was assigned still reports
`was_sent()` false after unpickling, and a token list that was empty at
pickling time is restored as a fresh empty list that `add_token` can
still extend. -/
theorem setstate_was_sent_flag (m : Message) (b : Option Bool) (t : Token) :
    Message.was_sent { m with _was_sent := b } = m.was_sent ∧
    (Message.setstate m.getstate)._was_sent = some true ∧
    (m.sender_id = none →
      (Message.setstate m.getstate).was_sent = false) ∧
    (m.sender_id = none → m.tokens_to_add = [] →
      (Message.setstate m.getstate).tokens_to_add = [] ∧
      (Message.setstate m.getstate).add_token (Value.token t) =
        Except.ok { Message.setstate m.getstate with
          tokens_to_add := [Value.token t] }) := by
  refine ⟨rfl, rfl, fun hs => ?_, fun hs ha => ?_⟩
  · simp [Message.setstate, Message.getstate, Message.was_sent, hs]
  · have h1 : (Message.setstate m.getstate).tokens_to_add = [] := by
      simp [Message.setstate, Message.getstate, ha]
    refine ⟨h1, ?_⟩
    have h2 : (Message.setstate m.getstate).was_sent = false := by
      simp [Message.setstate, Message.getstate, Message.was_sent, hs]
    simp [Message.add_token, require_token, Value.isToken, h2, h1]

/-- Witness for C9 at a concrete input: a fresh message round-tripped
through `__getstate__`/`__setstate__`. -/
theorem setstate_was_sent_flag_witness :
    (Message.setstate Message.init.getstate).was_sent = false ∧
    (Message.setstate Message.init.getstate)._was_sent = some true :=
  ⟨(setstate_was_sent_flag Message.init none
      ⟨none, Registration.unregistered, 0⟩).2.2.1 rfl,
    (setstate_was_sent_flag Message.init none
      ⟨none, Registration.unregistered, 0⟩).2.1⟩

/-- On a list of tokens, the first structural loop of `_check` returns
`False` exactly when some token is already in the world or carries an id
the factory did not issue. -/
theorem checkAddLoop_eq (w : World) (f : IdFactory) :
    ∀ A : List Token,
      checkAddLoop w f (A.map Value.token) =
        some (A.all (fun t => !w.contains t && f.containsId t.id)) := by
  intro A
  induction A with
  | nil => rfl
  | cons t ts ih =>
    by_cases hw : w.contains t
    · simp [checkAddLoop, hw]
    · by_cases hf : f.containsId t.id
      · simpa [checkAddLoop, hw, hf] using ih
      · simp [checkAddLoop, hw, hf]

/-- On a list of tokens, the second structural loop of `_check` returns
`False` exactly when some token is absent from the world. -/
theorem checkRemoveLoop_eq (w : World) :
    ∀ R : List Token,
      checkRemoveLoop w (R.map Value.token) =
        some (R.all (fun t => w.contains t)) := by
  intro R
  induction R with
  | nil => rfl
  | cons t ts ih =>
    by_cases hw : w.contains t
    · simpa [checkRemoveLoop, hw] using ih
    · simp [checkRemoveLoop, hw]

/-- C2: for a message whose token-add list is `A` and token-remove list
is `R`, `_check` returns `False` whenever some token in `A` is already in
the world, or some token in `A` carries an id not contained in the id
factory, or some token in `R` is absent from the world — and in those
cases the result is `False` for every `on_check` hook, i.e. the hook is
never consulted; when all structural conditions hold, `_check` returns
exactly what the `on_check` hook returns on `(world, id_factory.get())`. -/
theorem check_structural_guard (A R : List Token) (m : Message) (w : World)
    (f : IdFactory) (hA : m.tokens_to_add = A.map Value.token)
    (hR : m.tokens_to_remove = R.map Value.token) :
    ((∃ t ∈ A, w.contains t = true) →
      ∀ onCheck : World → Nat → Bool, Message._check onCheck m w f = some false) ∧
    ((∃ t ∈ A, f.containsId t.id = false) →
      ∀ onCheck : World → Nat → Bool, Message._check onCheck m w f = some false) ∧
    ((∃ t ∈ R, w.contains t = false) →
      ∀ onCheck : World → Nat → Bool, Message._check onCheck m w f = some false) ∧
    ((∀ t ∈ A, w.contains t = false ∧ f.containsId t.id = true) →
      (∀ t ∈ R, w.contains t = true) →
      ∀ onCheck : World → Nat → Bool,
        Message._check onCheck m w f = some (onCheck w f.get)) := by
  refine ⟨?_, ?_, ?_, ?_⟩
  · rintro ⟨t, ht, hw⟩ onCheck
    have : A.all (fun t => !w.contains t && f.containsId t.id) = false := by
      simp only [List.all_eq_false]
      exact ⟨t, ht, by simp [hw]⟩
    simp [Message._check, hA, checkAddLoop_eq, this]
  · rintro ⟨t, ht, hf⟩ onCheck
    have : A.all (fun t => !w.contains t && f.containsId t.id) = false := by
      simp only [List.all_eq_false]
      exact ⟨t, ht, by simp [hf]⟩
    simp [Message._check, hA, checkAddLoop_eq, this]
  · rintro ⟨t, ht, hw⟩ onCheck
    have hrem : R.all (fun t => w.contains t) = false := by
      simp only [List.all_eq_false]
      exact ⟨t, ht, by simp [hw]⟩
    rcases hadd : A.all (fun t => !w.contains t && f.containsId t.id) with _ | _ <;>
      simp [Message._check, hA, hR, checkAddLoop_eq, checkRemoveLoop_eq, hadd, hrem]
  · intro hAok hRok onCheck
    have hadd : A.all (fun t => !w.contains t && f.containsId t.id) = true := by
      simp only [List.all_eq_true]
      intro t ht
      simp [(hAok t ht).1, (hAok t ht).2]
    have hrem : R.all (fun t => w.contains t) = true := by
      simp only [List.all_eq_true]
      intro t ht
      simp [hRok t ht]
    simp [Message._check, hA, hR, checkAddLoop_eq, checkRemoveLoop_eq, hadd, hrem]

/-- Witness for C2 at a concrete input: a message that adds a token
already present in the world fails its check even under a hook that
always accepts. -/
theorem check_structural_guard_witness :
    Message._check (fun _ _ => true)
        { Message.init with
          tokens_to_add := [Value.token ⟨some 1, Registration.registered, 0⟩] }
        ⟨[⟨some 1, Registration.registered, 0⟩]⟩ ⟨5, [1]⟩ = some false :=
  (check_structural_guard [⟨some 1, Registration.registered, 0⟩] []
      { Message.init with
        tokens_to_add := [Value.token ⟨some 1, Registration.registered, 0⟩] }
      ⟨[⟨some 1, Registration.registered, 0⟩]⟩ ⟨5, [1]⟩ rfl rfl).1
    ⟨⟨some 1, Registration.registered, 0⟩, by simp, by decide⟩ (fun _ _ => true)

/-- On a list of tokens, the re-add loop of `_handle_hard_sync_error`
extends the world with, for each token in order, the token with its
registration reset and its original id restored. -/
theorem reAddRemovedLoop_eq (R : List Token) :
    ∀ w : World,
      reAddRemovedLoop w (R.map Value.token) =
        Except.ok ⟨w.tokens ++
          R.map (fun t => { t.reset_registration with id := t.id })⟩ := by
  induction R with
  | nil => intro w; simp [reAddRemovedLoop]
  | cons t ts ih =>
    intro w
    simpa [reAddRemovedLoop, World._add_token, List.append_assoc] using
      ih (w._add_token { t.reset_registration with id := t.id })

/-- C3: `_handle_hard_sync_error` reverses a message's structural effects
exactly.  Each token in the to-add list is looked up in the world by its
id and that world-resident instance is removed (a failed lookup faults);
each token in the to-remove list is re-added with its registration reset
and its original id restored, extending the world with exactly those
tokens in order; the `on_hard_sync_error` hook runs only after both
reversal loops succeed, on the doubly-reversed world, and is never
reached when the removal loop faults; and the default (non-overridden)
hook raises `UnhandledSyncError`, so a message whose reversal succeeds
still ends in that fatal condition unless the hook was overridden. -/
theorem handle_hard_sync_error_reversal :
    (∀ (w : World) (t real : Token) (i : Nat) (vs : List Value),
      t.id = some i → w.get_token i = some real →
      removeAddedLoop w (Value.token t :: vs) =
        removeAddedLoop (w._remove_token real) vs) ∧
    (∀ (w : World) (t : Token) (i : Nat) (vs : List Value),
      t.id = some i → w.get_token i = none →
      removeAddedLoop w (Value.token t :: vs) =
        Except.error KxgError.tokenNotFound) ∧
    (∀ (R : List Token) (w : World),
      reAddRemovedLoop w (R.map Value.token) =
        Except.ok ⟨w.tokens ++
          R.map (fun t => { t.reset_registration with id := t.id })⟩) ∧
    (∀ (t : Token),
      ({ t.reset_registration with id := t.id } : Token).id = t.id ∧
      ({ t.reset_registration with id := t.id } : Token).registration =
        Registration.unregistered) ∧
    (∀ (hook : World → Except KxgError World) (m : Message) (w w1 w2 : World),
      removeAddedLoop w m.tokens_to_add = Except.ok w1 →
      reAddRemovedLoop w1 m.tokens_to_remove = Except.ok w2 →
      Message._handle_hard_sync_error hook m w = hook w2) ∧
    (∀ (hook : World → Except KxgError World) (m : Message) (w : World)
        (e : KxgError),
      removeAddedLoop w m.tokens_to_add = Except.error e →
      Message._handle_hard_sync_error hook m w = Except.error e) ∧
    (∀ (m : Message) (w w1 w2 : World),
      removeAddedLoop w m.tokens_to_add = Except.ok w1 →
      reAddRemovedLoop w1 m.tokens_to_remove = Except.ok w2 →
      Message._handle_hard_sync_error Message.on_hard_sync_error m w =
        Except.error KxgError.unhandledSyncError) := by
  refine ⟨?_, ?_, reAddRemovedLoop_eq, ?_, ?_, ?_, ?_⟩
  · intro w t real i vs hi hreal
    simp [removeAddedLoop, hi, hreal]
  · intro w t i vs hi hreal
    simp [removeAddedLoop, hi, hreal]
  · intro t
    exact ⟨rfl, rfl⟩
  · intro hook m w w1 w2 h1 h2
    simp [Message._handle_hard_sync_error, h1, h2]
  · intro hook m w e h1
    simp [Message._handle_hard_sync_error, h1]
  · intro m w w1 w2 h1 h2
    simp [Message._handle_hard_sync_error, h1, h2, Message.on_hard_sync_error]

/-- Witness for C3 at a concrete input: a message that removed the token
with id 1 re-adds it (registration reset, id restored) and then the
default hook raises `UnhandledSyncError`. -/
theorem handle_hard_sync_error_reversal_witness :
    reAddRemovedLoop ⟨[]⟩
        [Value.token ⟨some 1, Registration.removed, 4⟩] =
      Except.ok ⟨[⟨some 1, Registration.unregistered, 4⟩]⟩ ∧
    Message._handle_hard_sync_error Message.on_hard_sync_error
        { Message.init with
          tokens_to_remove := [Value.token ⟨some 1, Registration.removed, 4⟩] }
        ⟨[]⟩ =
      Except.error KxgError.unhandledSyncError :=
  ⟨handle_hard_sync_error_reversal.2.2.1 [⟨some 1, Registration.removed, 4⟩] ⟨[]⟩,
    handle_hard_sync_error_reversal.2.2.2.2.2.2
      { Message.init with
        tokens_to_remove := [Value.token ⟨some 1, Registration.removed, 4⟩] }
      ⟨[]⟩ ⟨[]⟩ ⟨[⟨some 1, Registration.unregistered, 4⟩]⟩ rfl
      (handle_hard_sync_error_reversal.2.2.1 [⟨some 1, Registration.removed, 4⟩] ⟨[]⟩)⟩

/-- The loop of `Timer.deliver` promotes exactly the pending packages
whose decreased delay is strictly negative (in order) and re-defers the
others with their decreased delays (in order); the forum's other fields
are untouched. -/
theorem deliverLoop_eq (time : Int) :
    ∀ (ps : List (Int × Msg)) (t : Timer),
      (deliverLoop time t ps).forum.publications =
        t.forum.publications ++
          (ps.filter (fun dm => decide (dm.1 - time < 0))).map
            (fun dm => ⟨none, none, dm.2⟩) ∧
      (deliverLoop time t ps).pending =
        t.pending ++
          (ps.filter (fun dm => !decide (dm.1 - time < 0))).map
            (fun dm => (dm.1 - time, dm.2)) ∧
      (deliverLoop time t ps).forum.subscriptions = t.forum.subscriptions ∧
      (deliverLoop time t ps).forum.locked = t.forum.locked := by
  intro ps
  induction ps with
  | nil => intro t; simp [deliverLoop]
  | cons dm rest ih =>
    intro t
    obtain ⟨d, m⟩ := dm
    by_cases hd : d - time < 0
    · have hd' : d < time := by omega
      have h := ih { t with forum := t.forum.publish m }
      simpa [deliverLoop, hd, hd', Forum.publish, List.filter_cons,
        List.append_assoc] using h
    · have hd' : time ≤ d := by omega
      have h := ih (t.publish m (d - time))
      simpa [deliverLoop, hd, hd', Timer.publish, List.filter_cons,
        List.append_assoc] using h

/-- C7 counterexample: the claim says a deferred message is promoted to
immediate publication once its remaining delay is less than *or equal
to* 0.  `Timer.deliver` uses `if delay < 0`, so a message whose remaining
delay is exactly 0 is re-deferred (with delay 0), not promoted: deferring
a message by 1 and then delivering after exactly 1 elapsed leaves the
publication queue empty and the message pending with delay 0. -/
theorem timer_boundary_counterexample :
    ((Timer.mk Forum.init []).publish ⟨0, 0⟩ 1 |>.deliver 1).forum.publications
      = [] ∧
    ((Timer.mk Forum.init []).publish ⟨0, 0⟩ 1 |>.deliver 1).pending
      = [(0, ⟨0, 0⟩)] := by
  constructor <;> rfl

/-- C7 (amended): `Timer.publish(message, delay)` defers the message
instead of enqueueing it on the forum's queue; on each `deliver(time)`
tick every pending delay is decreased by the elapsed time, the message is
promoted to immediate publication exactly when the decreased delay is
strictly less than 0, and is re-deferred with the decreased delay
(including a delay of exactly 0) otherwise. -/
theorem timer_defer_promote (t : Timer) (m : Msg) (delay time : Int) :
    (t.publish m delay).forum.publications = t.forum.publications ∧
    (t.publish m delay).pending = t.pending ++ [(delay, m)] ∧
    (t.deliver time).forum.publications =
      t.forum.publications ++
        (t.pending.filter (fun dm => decide (dm.1 - time < 0))).map
          (fun dm => ⟨none, none, dm.2⟩) ∧
    (t.deliver time).pending =
      (t.pending.filter (fun dm => !decide (dm.1 - time < 0))).map
        (fun dm => (dm.1 - time, dm.2)) := by
  have h := deliverLoop_eq time t.pending { t with pending := [] }
  exact ⟨rfl, rfl, h.1, h.2.1⟩

/-- After the incoming drain, the history entry of every origin is the
maximum of its previous value and the highest ticker among the drained
packets from that origin. -/
theorem drainIncoming_history_max :
    ∀ (ps : List Packet) (h : Nat → Nat) (q : List Publication) (o : Nat),
      (drainIncoming h q ps).1 o = max (h o) (maxTickerFrom o ps) := by
  intro ps
  induction ps with
  | nil => intro h q o; simp [drainIncoming, maxTickerFrom]
  | cons p rest ih =>
    intro h q o
    by_cases hacc : p.tag.ticker > h p.tag.origin
    · rw [show drainIncoming h q (p :: rest) =
          drainIncoming (fun o' => if o' = p.tag.origin then p.tag.ticker else h o')
            (q ++ [⟨p.pipe, some p.tag, p.message⟩]) rest from by
        simp [drainIncoming, hacc]]
      rw [ih]
      by_cases ho : p.tag.origin = o
      · subst ho
        simp [maxTickerFrom]
        omega
      · have ho' : ¬(o = p.tag.origin) := fun hh => ho hh.symm
        simp only [maxTickerFrom, if_neg ho, if_neg ho']
    · rw [show drainIncoming h q (p :: rest) = drainIncoming h q rest from by
        simp [drainIncoming, hacc]]
      rw [ih]
      by_cases ho : p.tag.origin = o
      · subst ho
        simp [maxTickerFrom]
        omega
      · simp only [maxTickerFrom, if_neg ho]

/-- C1: in the incoming-packet phase of `Forum.update` on a locked forum,
a drained packet tagged `(target, origin, ticker)` is accepted into the
local publication queue exactly when `ticker` is strictly greater than
the history entry for `origin` (which reads as 0 for an origin with no
entry, as on a fresh forum), in which case `history[origin]` is advanced
to `ticker`; otherwise the packet is dropped and the history is left
untouched, so after the drain `history[origin]` sits at the maximum of
its old value and the highest ticker seen from that origin.  `update`
runs this drain only when the forum is locked (the `assert` fires
otherwise). -/
theorem forum_ticker_filter (f : Forum) (h : Nat → Nat) (q : List Publication)
    (p : Packet) (ps : List Packet) (o : Nat) :
    Forum.init.history o = 0 ∧
    (p.tag.ticker > h p.tag.origin →
      drainIncoming h q (p :: ps) =
        drainIncoming (fun o' => if o' = p.tag.origin then p.tag.ticker else h o')
          (q ++ [⟨p.pipe, some p.tag, p.message⟩]) ps) ∧
    (¬(p.tag.ticker > h p.tag.origin) →
      drainIncoming h q (p :: ps) = drainIncoming h q ps) ∧
    ((drainIncoming h q [p]).2 =
      (if p.tag.ticker > h p.tag.origin then q ++ [⟨p.pipe, some p.tag, p.message⟩]
       else q)) ∧
    ((drainIncoming h q [p]).1 p.tag.origin =
      (if p.tag.ticker > h p.tag.origin then p.tag.ticker else h p.tag.origin)) ∧
    ((drainIncoming h q ps).1 o = max (h o) (maxTickerFrom o ps)) ∧
    (f.locked = true →
      f.update ps =
        some ({ f with history := (drainIncoming f.history f.publications ps).1,
                       publications := [] },
              deliverQueue f.subscriptions
                (drainIncoming f.history f.publications ps).2)) ∧
    (f.locked = false → f.update ps = none) := by
  refine ⟨rfl, ?_, ?_, ?_, ?_, drainIncoming_history_max ps h q o, ?_, ?_⟩
  · intro hacc
    simp [drainIncoming, hacc]
  · intro hacc
    simp [drainIncoming, hacc]
  · by_cases hacc : p.tag.ticker > h p.tag.origin <;>
      simp [drainIncoming, hacc]
  · by_cases hacc : p.tag.ticker > h p.tag.origin <;>
      simp [drainIncoming, hacc]
  · intro hl
    simp [Forum.update, hl]
  · intro hl
    simp [Forum.update, hl]

/-- Witness for C1 at a concrete input: with history at 0 for origin 4, a
packet from origin 4 with ticker 2 is accepted and advances the history
entry to 2. -/
theorem forum_ticker_filter_witness :
    (drainIncoming (fun _ => 0) [] [⟨some 0, ⟨1, 4, 2⟩, ⟨0, 0⟩⟩]).2 =
        [⟨some 0, some ⟨1, 4, 2⟩, ⟨0, 0⟩⟩] ∧
      (drainIncoming (fun _ => 0) [] [⟨some 0, ⟨1, 4, 2⟩, ⟨0, 0⟩⟩]).1 4 = 2 := by
  have h := forum_ticker_filter Forum.init (fun _ => 0) []
    ⟨some 0, ⟨1, 4, 2⟩, ⟨0, 0⟩⟩ [] 4
  refine ⟨?_, ?_⟩
  · have := h.2.2.2.1
    simpa using this
  · have := h.2.2.2.2.1
    simpa using this

/-- Every callback invocation produced by the local-delivery phase names
a callback from the current subscription list and a message from the
current publication queue. -/
theorem deliverQueue_mem (subs : List (Nat × Nat)) (pubs : List Publication)
    (c : Nat) (msg : Msg) (h : (c, msg) ∈ deliverQueue subs pubs) :
    (∃ pr ∈ subs, pr.2 = c) ∧ (∃ p ∈ pubs, p.message = msg) := by
  simp only [deliverQueue, List.mem_flatMap] at h
  obtain ⟨p, hp, hmem⟩ := h
  simp only [List.mem_map] at hmem
  obtain ⟨cbv, hcb, heq⟩ := hmem
  cases heq
  refine ⟨?_, ⟨p, hp, rfl⟩⟩
  simp only [callbacksFor, List.mem_map] at hcb
  obtain ⟨pr, hpr, hpr2⟩ := hcb
  exact ⟨pr, (List.mem_filter.mp hpr).1, hpr2⟩

/-- A callback that is not in the subscription list when a trace of
client operations starts, and that no operation of the trace subscribes,
is never invoked during the trace. -/
theorem runOps_no_callback (cb : Nat) :
    ∀ (ops : List Op) (f : Forum),
      (∀ pr ∈ f.subscriptions, pr.2 ≠ cb) →
      (∀ fl c, Op.subscribe fl c ∈ ops → c ≠ cb) →
      ∀ msg, (cb, msg) ∉ runOps f ops := by
  intro ops
  induction ops with
  | nil => intro f _ _ msg; simp [runOps]
  | cons op rest ih =>
    intro f hsubs hops msg
    have hrest : ∀ fl c, Op.subscribe fl c ∈ rest → c ≠ cb :=
      fun fl c hc => hops fl c (List.mem_cons_of_mem op hc)
    cases op with
    | lock =>
      simp only [runOps, stepOp, List.nil_append]
      exact ih f.lock hsubs hrest msg
    | unlock =>
      simp only [runOps, stepOp, List.nil_append]
      exact ih f.unlock (by simp [Forum.unlock]) hrest msg
    | subscribe flavor c =>
      have hc : c ≠ cb := hops flavor c (List.mem_cons_self _ _)
      by_cases hl : f.locked
      · simp [runOps, stepOp, Forum.subscribe, hl]
      · simp only [runOps, stepOp, Forum.subscribe, hl, if_neg, Bool.false_eq_true,
          not_false_eq_true, Option.map_some, List.nil_append]
        refine ih _ ?_ hrest msg
        intro pr hpr
        rcases List.mem_append.mp hpr with hin | hnew
        · exact hsubs pr hin
        · rcases List.mem_singleton.mp hnew with rfl
          exact hc
    | publish m =>
      simp only [runOps, stepOp, List.nil_append]
      exact ih (f.publish m) (by simpa [Forum.publish] using hsubs) hrest msg
    | update =>
      by_cases hl : f.locked
      · simp only [runOps, stepOp, Forum.update, hl, Bool.not_true,
          Bool.false_eq_true, if_neg, not_false_eq_true, List.mem_append]
        rintro (hev | hev)
        · have := (deliverQueue_mem f.subscriptions
            (drainIncoming f.history f.publications []).2 cb msg hev).1
          obtain ⟨pr, hpr, hpr2⟩ := this
          exact hsubs pr hpr hpr2
        · refine absurd hev (ih _ ?_ hrest msg)
          exact fun pr hpr => hsubs pr hpr
      · simp [runOps, stepOp, Forum.update, hl]

/-- A message that is not in the publication queue when a trace of client
operations starts, and that no operation of the trace publishes, is never
delivered to any callback during the trace. -/
theorem runOps_no_message (m : Msg) :
    ∀ (ops : List Op) (f : Forum),
      (∀ p ∈ f.publications, p.message ≠ m) →
      (∀ m', Op.publish m' ∈ ops → m' ≠ m) →
      ∀ c, (c, m) ∉ runOps f ops := by
  intro ops
  induction ops with
  | nil => intro f _ _ c; simp [runOps]
  | cons op rest ih =>
    intro f hpubs hops c
    have hrest : ∀ m', Op.publish m' ∈ rest → m' ≠ m :=
      fun m' hc => hops m' (List.mem_cons_of_mem op hc)
    cases op with
    | lock =>
      simp only [runOps, stepOp, List.nil_append]
      exact ih f.lock hpubs hrest c
    | unlock =>
      simp only [runOps, stepOp, List.nil_append]
      exact ih f.unlock (by simp [Forum.unlock]) hrest c
    | subscribe flavor cb =>
      by_cases hl : f.locked
      · simp [runOps, stepOp, Forum.subscribe, hl]
      · simp only [runOps, stepOp, Forum.subscribe, hl, Bool.false_eq_true,
          if_neg, not_false_eq_true, Option.map_some, List.nil_append]
        intro hev
        refine absurd hev (ih _ ?_ hrest c)
        exact fun p hp => hpubs p hp
    | publish m' =>
      have hm' : m' ≠ m := hops m' (List.mem_cons_self _ _)
      simp only [runOps, stepOp, List.nil_append]
      intro hev
      refine absurd hev (ih _ ?_ hrest c)
      intro p hp
      rcases List.mem_append.mp hp with hin | hnew
      · exact hpubs p hin
      · rcases List.mem_singleton.mp hnew with rfl
        exact hm'
    | update =>
      by_cases hl : f.locked
      · simp only [runOps, stepOp, Forum.update, hl, Bool.not_true,
          Bool.false_eq_true, if_neg, not_false_eq_true, List.mem_append]
        rintro (hev | hev)
        · have := (deliverQueue_mem f.subscriptions
            (drainIncoming f.history f.publications []).2 c m hev).2
          obtain ⟨p, hp, hp2⟩ := this
          exact hpubs p hp hp2
        · refine absurd hev (ih _ ?_ hrest c)
          intro p hp
          simp at hp
      · simp [runOps, stepOp, Forum.update, hl]

/-- C6: `unlock()` clears all subscriptions and empties the
pending-publication queue — a full reset.  Consequently, over any trace
of later client operations (lock, unlock, subscribe, publish, update):
a callback subscribed before the unlock is never invoked unless some
operation of the trace subscribes it again, and a message published
before the unlock is never delivered unless some operation of the trace
publishes it again. -/
theorem unlock_full_reset (f : Forum) (ops : List Op) (cb : Nat) (m : Msg) :
    (f.unlock).subscriptions = [] ∧
    (f.unlock).publications = [] ∧
    (f.unlock).locked = false ∧
    ((∀ fl c, Op.subscribe fl c ∈ ops → c ≠ cb) →
      ∀ msg, (cb, msg) ∉ runOps f.unlock ops) ∧
    ((∀ m', Op.publish m' ∈ ops → m' ≠ m) →
      ∀ c, (c, m) ∉ runOps f.unlock ops) := by
  refine ⟨rfl, rfl, rfl, ?_, ?_⟩
  · intro hops msg
    refine runOps_no_callback cb ops f.unlock ?_ hops msg
    intro pr hpr
    simp [Forum.unlock] at hpr
  · intro hops c
    refine runOps_no_message m ops f.unlock ?_ hops c
    intro p hp
    simp [Forum.unlock] at hp

/-- Witness for C6 at a concrete input: after an unlock, a
lock-publish-update cycle that never resubscribes callback 7 does not
invoke it, even though callback 7 was subscribed (to flavor 0) before
the unlock. -/
theorem unlock_full_reset_witness :
    (7, Msg.mk 0 0) ∉
      runOps (Forum.mk (fun _ => 0) [(0, 7)] [] true).unlock
        [Op.lock, Op.publish ⟨0, 0⟩, Op.update] :=
  (unlock_full_reset (Forum.mk (fun _ => 0) [(0, 7)] [] true)
      [Op.lock, Op.publish ⟨0, 0⟩, Op.update] 7 ⟨0, 0⟩).2.2.2.1
    (by intro fl c hc; simp [Op.publish] at hc) (Msg.mk 0 0)
